import Mathlib

/-!
Shallow embedding of the procedural generation, sampling and routing engine of
`src/HeatmapTerreno.tsx` (final revision of the component), together with
theorems settling the specification claims about it.

Modelling conventions:
* JavaScript numbers are modelled by `ℚ` (exact arithmetic); 32-bit integer
  operations of the PRNG are modelled on `Nat` with explicit `% 4294967296`.
* The transcendental library functions `Math.exp`, `Math.cos`, `Math.sin`,
  `Math.asin`, `Math.sqrt` and the constant `Math.PI` have no exact rational
  counterpart; they are abstracted into a record `JsMath` of unspecified
  rational functions, and every theorem is proved for all instantiations.
* `Number(x.toFixed(d))` is modelled as exact rounding to `d` decimal places
  (half away from zero for the nonnegative values arising here), and
  `Math.round`/`Math.floor` as `⌊q + 1/2⌋`/`⌊q⌋`.
* `Date.now()` is modelled as an explicit integer parameter `now` of
  `makeDetections` (millisecond timestamp), since the source reads the clock.
-/

/-- Abstraction of the transcendental parts of the JavaScript `Math` object. -/
structure JsMath where
  exp : ℚ → ℚ
  cos : ℚ → ℚ
  sin : ℚ → ℚ
  asin : ℚ → ℚ
  sqrt : ℚ → ℚ
  pi : ℚ

/-- Model of `Number(q.toFixed(d))`: round to `d` decimal places, halves up. -/
def jsToFixed (d : Nat) (q : ℚ) : ℚ := (⌊q * 10 ^ d + 1 / 2⌋ : ℚ) / 10 ^ d

/-- Model of `Math.round`. -/
def jround (q : ℚ) : ℤ := ⌊q + 1 / 2⌋

/-- `Math.min(...xs)` for the nonempty coordinate lists of the source
(the empty case, `Infinity` in JavaScript, is never consumed because an empty
polygon rejects every point). -/
def jsMin : List ℚ → ℚ
  | [] => 0
  | x :: xs => xs.foldl min x

/-- `Math.max(...xs)`, same conventions as `jsMin`. -/
def jsMax : List ℚ → ℚ
  | [] => 0
  | x :: xs => xs.foldl max x

/-- One call of the closure returned by `mulberry32` (source lines 352-359).
The state is the captured variable `a` as a 32-bit pattern; the returned pair
is the new state and the produced float `o / 2^32 ∈ [0,1)`.  `Math.imul`,
`^`, `|`, `>>>` act on the 32-bit patterns of their operands, which the
`% 4294967296` and the `Nat` shifts reproduce exactly. -/
def mulberryStep (a : Nat) : Nat × ℚ :=
  let a' := (a + 0x6d2b79f5) % 4294967296
  let t1 := ((a' ^^^ a' / 32768) * (a' ||| 1)) % 4294967296
  let m := ((t1 ^^^ t1 / 128) * (t1 ||| 61)) % 4294967296
  let t2 := t1 ^^^ (t1 + m) % 4294967296
  let o := t2 ^^^ t2 / 16384
  (a', (o : ℚ) / 4294967296)

/-- The first `n` floats produced by a `mulberry32` instance seeded with `a`. -/
def mulberrySeq (a : Nat) : Nat → List ℚ
  | 0 => []
  | n + 1 => (mulberryStep a).2 :: mulberrySeq (mulberryStep a).1 n

/-- Ray casting point-in-polygon test (source lines 340-350).  The point and
the vertices are `(lng, lat)` pairs; the edge from vertex `j` to vertex `i`
runs over `i = 0, …, n-1` with `j = n-1, 0, …, n-2`.  The division is only
reached under the guard `yi > y ≠ yj > y`, which forces `yj ≠ yi`. -/
def pointInPolygon (point : ℚ × ℚ) (polygon : List (ℚ × ℚ)) : Bool :=
  let x := point.1
  let y := point.2
  let n := polygon.length
  (List.range n).foldl
    (fun inside i =>
      let j := if i = 0 then n - 1 else i - 1
      let xi := (polygon.getD i (0, 0)).1
      let yi := (polygon.getD i (0, 0)).2
      let xj := (polygon.getD j (0, 0)).1
      let yj := (polygon.getD j (0, 0)).2
      let intersect :=
        (decide (yi > y) != decide (yj > y)) &&
          decide (x < (xj - xi) * (y - yi) / (yj - yi) + xi)
      if intersect then !inside else inside)
    false

/-- `metersToDegreesLat` (source line 383). -/
def metersToDegreesLat (m : ℚ) : ℚ := m / 111320

/-- `metersToDegreesLng` (source line 384). -/
def metersToDegreesLng (M : JsMath) (m lat : ℚ) : ℚ :=
  m / (111320 * M.cos (lat * M.pi / 180))

/-- Initial PRNG state of `generateHotspots`: the code passes the base seed
unchanged, `mulberry32(seed)` (source line 363). -/
def hotspotsSeed (seed : Nat) : Nat := seed

/-- Initial PRNG state of `sampleHeatPoints`: `mulberry32(seed ^ 0x9e3779b1)`
(source line 388); `^` reads its operand as a 32-bit pattern. -/
def samplesSeed (seed : Nat) : Nat := seed % 4294967296 ^^^ 0x9e3779b1

/-- Initial PRNG state of `makeDetections`: `mulberry32(seed ^ 0x1b873593)`
(source line 507). -/
def detectionsSeed (seed : Nat) : Nat := seed % 4294967296 ^^^ 0x1b873593

/-- Treatment-pass tag (`type Passada`). -/
inductive Passada where
  | pre
  | plantio
  | adubo
deriving DecidableEq

/-- Hotspot record produced by `generateHotspots` (source line 368). -/
structure Hotspot where
  lng : ℚ
  lat : ℚ
  amp : ℚ
  spread : ℚ
  passada : Passada
deriving DecidableEq

/-- The rejection-sampling `while` loop of `generateHotspots` (source lines
370-379), with the attempt counter made explicit.  `fuel` is `5000 - tries`;
the returned pair is the accumulated hotspot list and the final value of
`tries`. -/
def genHotspotsLoop (polygon : List (ℚ × ℚ)) (count : Nat)
    (ampRange spreadRange : ℚ × ℚ) (minx maxx miny maxy : ℚ) :
    Nat → Nat → List Hotspot → Nat → List Hotspot × Nat
  | 0, _, acc, tries => (acc, tries)
  | fuel + 1, a, acc, tries =>
    if acc.length < count then
      let s1 := mulberryStep a
      let s2 := mulberryStep s1.1
      let lng := minx + s1.2 * (maxx - minx)
      let lat := miny + s2.2 * (maxy - miny)
      if pointInPolygon (lng, lat) polygon then
        let s3 := mulberryStep s2.1
        let s4 := mulberryStep s3.1
        let amp := ampRange.1 + s3.2 * (ampRange.2 - ampRange.1)
        let spread := spreadRange.1 + s4.2 * (spreadRange.2 - spreadRange.1)
        genHotspotsLoop polygon count ampRange spreadRange minx maxx miny maxy
          fuel s4.1 (acc ++ [⟨lng, lat, amp, spread, Passada.pre⟩]) (tries + 1)
      else
        genHotspotsLoop polygon count ampRange spreadRange minx maxx miny maxy
          fuel s2.1 acc (tries + 1)
    else (acc, tries)

/-- `generateHotspots` (source lines 361-381) instrumented with the final
attempt count.  The default ranges of the source are `(0.6, 1.0)` and
`(25, 80)`; they are explicit arguments here. -/
def generateHotspotsI (polygon : List (ℚ × ℚ)) (count : Nat) (seed : Nat)
    (ampRange spreadRange : ℚ × ℚ) : List Hotspot × Nat :=
  let xs := polygon.map (·.1)
  let ys := polygon.map (·.2)
  genHotspotsLoop polygon count ampRange spreadRange
    (jsMin xs) (jsMax xs) (jsMin ys) (jsMax ys)
    5000 (hotspotsSeed seed) [] 0

/-- `generateHotspots`: the hotspot list returned by the source function. -/
def generateHotspots (polygon : List (ℚ × ℚ)) (count : Nat) (seed : Nat)
    (ampRange spreadRange : ℚ × ℚ) : List Hotspot :=
  (generateHotspotsI polygon count seed ampRange spreadRange).1

/-- Gaussian-sum intensity of a point, the inner `for (const h of hotspots)`
loop of `sampleHeatPoints` (source lines 401-409), before clamping. -/
def heatAt (M : JsMath) (hotspots : List Hotspot) (lng lat : ℚ) : ℚ :=
  hotspots.foldl
    (fun w h =>
      let dx := metersToDegreesLng M h.spread h.lat
      let dy := metersToDegreesLat h.spread
      let nx := (lng - h.lng) / dx
      let ny := (lat - h.lat) / dy
      let d2 := nx * nx + ny * ny
      w + M.exp (-d2 / 2) * h.amp)
    0

/-- A heat sample `[lat, lng, intensity]` as pushed by the source. -/
abbrev HeatPoint := ℚ × ℚ × ℚ

/-- The rejection-sampling `while` loop of `sampleHeatPoints` (source lines
396-413) with the `guard` counter explicit.  `fuel` is `target * 20 - guard`;
the source variable `generated` always equals `points.length`, which is used
directly. -/
def sampleLoop (M : JsMath) (polygon : List (ℚ × ℚ)) (hotspots : List Hotspot)
    (target : Nat) (minx maxx miny maxy : ℚ) :
    Nat → Nat → List HeatPoint → Nat → List HeatPoint × Nat
  | 0, _, acc, guard => (acc, guard)
  | fuel + 1, a, acc, guard =>
    if acc.length < target then
      let s1 := mulberryStep a
      let s2 := mulberryStep s1.1
      let lng := minx + s1.2 * (maxx - minx)
      let lat := miny + s2.2 * (maxy - miny)
      if pointInPolygon (lng, lat) polygon then
        let w := heatAt M hotspots lng lat
        let w := max 0 (min 1 w)
        sampleLoop M polygon hotspots target minx maxx miny maxy
          fuel s2.1 (acc ++ [(lat, lng, jsToFixed 3 w)]) (guard + 1)
      else
        sampleLoop M polygon hotspots target minx maxx miny maxy
          fuel s2.1 acc (guard + 1)
    else (acc, guard)

/-- `sampleHeatPoints` (source lines 386-415) instrumented with the final
`guard` value.  `target = Math.min(samples, 30000)` (source line 394). -/
def sampleHeatPointsI (M : JsMath) (polygon : List (ℚ × ℚ))
    (hotspots : List Hotspot) (seed : Nat) (samples : Nat) :
    List HeatPoint × Nat :=
  let xs := polygon.map (·.1)
  let ys := polygon.map (·.2)
  let target := min samples 30000
  sampleLoop M polygon hotspots target
    (jsMin xs) (jsMax xs) (jsMin ys) (jsMax ys)
    (target * 20) (samplesSeed seed) [] 0

/-- `sampleHeatPoints`: the `[lat, lng, intensity]` list of the source. -/
def sampleHeatPoints (M : JsMath) (polygon : List (ℚ × ℚ))
    (hotspots : List Hotspot) (seed : Nat) (samples : Nat) : List HeatPoint :=
  (sampleHeatPointsI M polygon hotspots seed samples).1

/-- Detection class tag (`classe: "erva" | "doenca"`). -/
inductive Classe where
  | erva
  | doenca
deriving DecidableEq

/-- `IMG_ERVA` (source line 335). -/
def IMG_ERVA : String :=
  "https://ihara.com.br/wp-content/uploads/sites/54/2021/12/sementes-de-capim-amargoso-leon-levy-foundation-banner-530x398-1-aspect-ratio-530-398-1.jpg"

/-- `IMG_DOENCA` (source line 336). -/
def IMG_DOENCA : String :=
  "https://altadefensivos.com.br/wp-content/uploads/2025/05/Design-sem-nome-3-1024x576.jpg.webp"

/-- Detection record (`type Detection`, source line 333).  The source `id` is
the string `lng.toFixed(5) + "_" + lat.toFixed(5) + "_" + i`; its
informational content, the two coordinates rounded to 5 decimals plus the
inner index, is kept as a triple.  `ts` is the millisecond timestamp whose
ISO rendering the source stores. -/
structure Detection where
  id : ℚ × ℚ × Nat
  lat : ℚ
  lng : ℚ
  ts : ℤ
  passada : Passada
  classe : Classe
  conf : ℚ
  img : String
deriving DecidableEq

/-- One iteration of the inner `for (let i = 0; i < k; i++)` loop of
`makeDetections` (source lines 511-522): from the PRNG state `a` and the
index `i`, the next PRNG state and the detection pushed for hotspot `h`.
`now` models `Date.now()`. -/
def detStep (M : JsMath) (polygon : List (ℚ × ℚ)) (h : Hotspot) (now : ℤ)
    (a i : Nat) : Nat × Detection :=
  let s1 := mulberryStep a
  let jitterM := h.spread * (35 / 100 + s1.2 * (40 / 100))
  let s2 := mulberryStep s1.1
  let dx := (s2.2 - 1 / 2) * 2 * metersToDegreesLng M jitterM h.lat
  let s3 := mulberryStep s2.1
  let dy := (s3.2 - 1 / 2) * 2 * metersToDegreesLat jitterM
  let lng := h.lng + dx
  let lat := h.lat + dy
  let p := if pointInPolygon (lng, lat) polygon then (lng, lat) else (h.lng, h.lat)
  let s4 := mulberryStep s3.1
  let classe := if s4.2 < 75 / 100 then Classe.erva else Classe.doenca
  let s5 := mulberryStep s4.1
  let conf := (jround ((60 / 100 + s5.2 * (38 / 100)) * 100) : ℚ) / 100
  let s6 := mulberryStep s5.1
  let ts := now - ⌊s6.2 * 72⌋ * (3600 * 1000)
  let img := if classe = Classe.erva then IMG_ERVA else IMG_DOENCA
  (s6.1,
    ⟨(jsToFixed 5 h.lng, jsToFixed 5 h.lat, i), p.2, p.1, ts, h.passada,
      classe, conf, img⟩)

/-- Inner `for (let i = 0; i < k; i++)` loop of `makeDetections` (source lines
511-523), pushing one `detStep` detection per iteration. -/
def detInnerLoop (M : JsMath) (polygon : List (ℚ × ℚ)) (h : Hotspot)
    (now : ℤ) : Nat → Nat → Nat → List Detection → Nat × List Detection
  | 0, a, _, acc => (a, acc)
  | k + 1, a, i, acc =>
    let s := detStep M polygon h now a i
    detInnerLoop M polygon h now k s.1 (i + 1) (acc ++ [s.2])

/-- One hotspot of the outer `for (const h of hotspots)` loop of
`makeDetections` (source lines 509-524): `k = 1 + Math.floor(rnd() * 3)`
detections are pushed; the state is the PRNG state paired with the
accumulated detections. -/
def detHotspot (M : JsMath) (polygon : List (ℚ × ℚ)) (now : ℤ)
    (st : Nat × List Detection) (h : Hotspot) : Nat × List Detection :=
  let s1 := mulberryStep st.1
  let k := (1 + ⌊s1.2 * 3⌋).toNat
  detInnerLoop M polygon h now k s1.1 0 st.2

/-- Outer `for (const h of hotspots)` loop of `makeDetections` (source lines
509-524), as a fold of `detHotspot` over the hotspot list. -/
def detOuterLoop (M : JsMath) (polygon : List (ℚ × ℚ)) (now : ℤ)
    (hs : List Hotspot) (a : Nat) (acc : List Detection) : List Detection :=
  (hs.foldl (detHotspot M polygon now) (a, acc)).2

/-- `makeDetections` (source lines 506-526).  `now` models the ambient
`Date.now()` read by the source when it builds each timestamp. -/
def makeDetections (M : JsMath) (hotspots : List Hotspot)
    (polygon : List (ℚ × ℚ)) (seed : Nat) (now : ℤ) : List Detection :=
  detOuterLoop M polygon now hotspots (detectionsSeed seed) []

/-- `haversine` (source lines 598-608); points are `(lat, lng)` pairs. -/
def haversine (M : JsMath) (a b : ℚ × ℚ) : ℚ :=
  let R : ℚ := 6371000
  let dLat := (b.1 - a.1) * M.pi / 180
  let dLng := (b.2 - a.2) * M.pi / 180
  let s1 := M.sin (dLat / 2)
  let s2 := M.sin (dLng / 2)
  let A := s1 * s1 + M.cos (a.1 * M.pi / 180) * M.cos (b.1 * M.pi / 180) * s2 * s2
  2 * R * M.asin (min 1 (M.sqrt A))

/-- Per-cell accumulator of the grid aggregation (`acc[key]`, source line
798): intensity sum, sample count and detection count. -/
structure CellAcc where
  wSum : ℚ
  wCount : Nat
  det : Nat
deriving DecidableEq

/-- `Record` upsert: `if (!acc[key]) acc[key] = init; f(acc[key])`.  The JS
object keeps insertion order for the comma-containing keys used here, which
this association-list update reproduces: an existing key is updated in place,
a new key is appended. -/
def upsert (k : ℤ × ℤ) (f : CellAcc → CellAcc) (init : CellAcc) :
    List ((ℤ × ℤ) × CellAcc) → List ((ℤ × ℤ) × CellAcc)
  | [] => [(k, f init)]
  | e :: rest => if e.1 = k then (e.1, f e.2) :: rest else e :: upsert k f init rest

/-- Grid parameters of `routeData` (source lines 786-796): bounding box,
cell size in degrees and grid extent.  The key of the source `Record` is the
string `ix + "," + iy`; it is in bijection with the integer pair `(ix, iy)`
used here. -/
structure Grid where
  minLng : ℚ
  maxLng : ℚ
  minLat : ℚ
  maxLat : ℚ
  dLng : ℚ
  dLat : ℚ
  nx : ℤ
  ny : ℤ

/-- Computation of the grid parameters (source lines 786-796). -/
def gridOf (M : JsMath) (polygon : List (ℚ × ℚ)) (gridSize : ℚ) : Grid :=
  let lngs := polygon.map (·.1)
  let lats := polygon.map (·.2)
  let minLng := jsMin lngs
  let maxLng := jsMax lngs
  let minLat := jsMin lats
  let maxLat := jsMax lats
  let latCenter := (minLat + maxLat) / 2
  let dLng := metersToDegreesLng M gridSize latCenter
  let dLat := metersToDegreesLat gridSize
  let nx := max 1 ⌈(maxLng - minLng) / dLng⌉
  let ny := max 1 ⌈(maxLat - minLat) / dLat⌉
  ⟨minLng, maxLng, minLat, maxLat, dLng, dLat, nx, ny⟩

/-- The two bucketing loops of `routeData` (source lines 800-817): every heat
sample adds its intensity to its cell, every active detection bumps its cell
count; samples or detections whose indices leave the grid are skipped. -/
def accOf (g : Grid) (heatPoints : List HeatPoint)
    (activeDetections : List Detection) : List ((ℤ × ℤ) × CellAcc) :=
  let acc1 := heatPoints.foldl
    (fun acc p =>
      let ix := ⌊(p.2.1 - g.minLng) / g.dLng⌋
      let iy := ⌊(p.1 - g.minLat) / g.dLat⌋
      if ix < 0 ∨ iy < 0 ∨ ix ≥ g.nx ∨ iy ≥ g.ny then acc
      else upsert (ix, iy)
        (fun a => ⟨a.wSum + p.2.2, a.wCount + 1, a.det⟩) ⟨0, 0, 0⟩ acc)
    []
  activeDetections.foldl
    (fun acc d =>
      let ix := ⌊(d.lng - g.minLng) / g.dLng⌋
      let iy := ⌊(d.lat - g.minLat) / g.dLat⌋
      if ix < 0 ∨ iy < 0 ∨ ix ≥ g.nx ∨ iy ≥ g.ny then acc
      else upsert (ix, iy)
        (fun a => ⟨a.wSum, a.wCount, a.det + 1⟩) ⟨0, 0, 0⟩ acc)
    acc1

/-- `maxDet` (source lines 826-827): maximum detection count over all cells. -/
def maxDetOf (acc : List ((ℤ × ℤ) × CellAcc)) : Nat :=
  acc.foldl (fun m e => max m e.2.det) 0

/-- Guarded cell mean intensity, `a.wCount ? a.wSum / a.wCount : 0`
(source line 840). -/
def wAvgOf (a : CellAcc) : ℚ :=
  if a.wCount = 0 then 0 else a.wSum / (a.wCount : ℚ)

/-- Normalized detection count, `maxDet > 0 ? a.det / maxDet : 0`
(source line 841). -/
def detNOf (maxDet : Nat) (det : Nat) : ℚ :=
  if 0 < maxDet then (det : ℚ) / (maxDet : ℚ) else 0

/-- A scored grid cell (source lines 819-824). -/
structure Cell where
  ix : ℤ
  iy : ℤ
  lat : ℚ
  lng : ℚ
  wAvg : ℚ
  det : Nat
  score : ℚ
  bbox : ℚ × ℚ × ℚ × ℚ
deriving DecidableEq

/-- The cell-building loop of `routeData` (source lines 829-844): one cell per
accumulator entry, in insertion order, dropping entries whose centroid falls
outside the polygon. -/
def cellsOf (g : Grid) (polygon : List (ℚ × ℚ))
    (acc : List ((ℤ × ℤ) × CellAcc)) : List Cell :=
  let maxDet := maxDetOf acc
  acc.filterMap
    (fun e =>
      let ix : ℤ := e.1.1
      let iy : ℤ := e.1.2
      let minx := g.minLng + (ix : ℚ) * g.dLng
      let miny := g.minLat + (iy : ℚ) * g.dLat
      let maxx := minx + g.dLng
      let maxy := miny + g.dLat
      let cx := (minx + maxx) / 2
      let cy := (miny + maxy) / 2
      if pointInPolygon (cx, cy) polygon then
        let wAvg := wAvgOf e.2
        let detN := detNOf maxDet e.2.det
        let score := 7 / 10 * wAvg + 3 / 10 * detN
        some ⟨ix, iy, cy, cx, wAvg, e.2.det, score, (minx, miny, maxx, maxy)⟩
      else none)

/-- The scan of the inner `for` loop of the nearest-neighbor search (source
lines 858-861): strict improvement on the best distance so far, indices
counted from `i`.  The source initializes `bestD = Infinity`, so the first
candidate always wins; callers pass the distance of candidate `0` as the
initial best, which is the same outcome. -/
def bestOf (M : JsMath) (cur : ℚ × ℚ) :
    List Cell → Nat → Nat × ℚ → Nat × ℚ
  | [], _, b => b
  | c :: rest, i, b =>
    let d := haversine M cur (c.lat, c.lng)
    if d < b.2 then bestOf M cur rest (i + 1) (i, d)
    else bestOf M cur rest (i + 1) b

/-- The greedy `while (remaining.length)` loop of `routeData` (source lines
855-864): repeatedly splice out the nearest remaining cell and append its
centroid `(lat, lng)`.  `fuel` starts at `remaining.length`. -/
def greedyLoop (M : JsMath) : Nat → (ℚ × ℚ) → List Cell → List (ℚ × ℚ)
  | 0, _, _ => []
  | _ + 1, _, [] => []
  | fuel + 1, cur, r :: rest =>
    let b := bestOf M cur rest 1 (0, haversine M cur (r.lat, r.lng))
    let nxt := (r :: rest).getD b.1 r
    let rem := (r :: rest).eraseIdx b.1
    (nxt.lat, nxt.lng) :: greedyLoop M fuel (nxt.lat, nxt.lng) rem

/-- Result of `routeData` (source lines 783-894).  The GeoJSON and KML export
payloads are derived serializations of `selected` and `path` and are outside
the verified core. -/
structure RouteData where
  cells : List Cell
  selected : List Cell
  path : List (ℚ × ℚ)
deriving DecidableEq

/-- Greedy route construction over the selected cells (source lines 849-864):
empty for an empty selection; otherwise the first selected cell in score
order, then the nearest-neighbor order of the rest. -/
def pathOf (M : JsMath) (selected : List Cell) : List (ℚ × ℚ) :=
  match selected with
  | [] => []
  | c0 :: rest =>
    (c0.lat, c0.lng) :: greedyLoop M rest.length (c0.lat, c0.lng) rest

/-- `routeData` (source lines 783-894): empty result on empty heat input;
otherwise bucket, score, sort descending by score (JS `sort` is stable, as is
`mergeSort`), select the first `min(topN, cells.length)` cells and order them
greedily. -/
def routeData (M : JsMath) (heatPoints : List HeatPoint)
    (activeDetections : List Detection) (polygon : List (ℚ × ℚ))
    (gridSize : ℚ) (topN : Nat) : RouteData :=
  if heatPoints = [] then ⟨[], [], []⟩ else
  let g := gridOf M polygon gridSize
  let acc := accOf g heatPoints activeDetections
  let cells := cellsOf g polygon acc
  let cells := cells.mergeSort (fun a b => decide (b.score ≤ a.score))
  let selected := cells.take (min topN cells.length)
  ⟨cells, selected, pathOf M selected⟩

/-- The coverage threshold (source line 653). -/
def threshold : ℚ := 65 / 100

/-- `coverage` (source lines 655-659): percentage of heat samples at or above
the threshold, one decimal, `0` for an empty sample list. -/
def coverage (heatPoints : List HeatPoint) : ℚ :=
  if heatPoints.length = 0 then 0
  else
    let c := ((heatPoints.filter (fun p => threshold ≤ p.2.2)).length : ℚ) /
      (heatPoints.length : ℚ)
    jsToFixed 1 (c * 100)

/-- `meanIntensity` (source lines 696-700): mean sample intensity as a
percentage, one decimal, `0` for an empty sample list. -/
def meanIntensity (heatPoints : List HeatPoint) : ℚ :=
  if heatPoints.length = 0 then 0
  else
    let sum := heatPoints.foldl (fun a p => a + p.2.2) 0
    jsToFixed 1 (sum / (heatPoints.length : ℚ) * 100)

/-- Hotspot density in foci per hectare (source line 931):
`(activeHotspots.length / Math.max(0.001, areaHa)).toFixed(2)`. -/
def density (nHotspots : Nat) (areaHa : ℚ) : ℚ :=
  jsToFixed 2 ((nHotspots : ℚ) / max (1 / 1000) areaHa)

/-- `riskLabel` (source lines 727-731): label and color from coverage. -/
def riskLabel (coverage : ℚ) : String × String :=
  if 60 ≤ coverage then ("Alto", "#ef4444")
  else if 30 ≤ coverage then ("Médio", "#eab308")
  else ("Baixo", "#22c55e")

/-- The unit square polygon of the specification scenario. -/
def unitSquare : List (ℚ × ℚ) := [(0, 0), (1, 0), (1, 1), (0, 1)]

/-- Shift the timestamp of a detection by `n` milliseconds. -/
def shiftTs (n : ℤ) (d : Detection) : Detection := { d with ts := d.ts + n }

/-- The full per-sample property maintained by the sampling loop: inside the
polygon, intensity exactly the rounded clamped Gaussian sum, and in `[0,1]`. -/
def goodSample (M : JsMath) (polygon : List (ℚ × ℚ))
    (hotspots : List Hotspot) (p : HeatPoint) : Prop :=
  pointInPolygon (p.2.1, p.1) polygon = true ∧
  p.2.2 = jsToFixed 3 (max 0 (min 1 (heatAt M hotspots p.2.1 p.1))) ∧
  0 ≤ p.2.2 ∧ p.2.2 ≤ 1

/-- A concrete `JsMath` instantiation (identity transcendentals) used to
evaluate the embedding at concrete inputs. -/
def idMath : JsMath :=
  ⟨fun q => q, fun _ => 1, fun q => q, fun q => q, fun q => q, 3⟩

/-- A singleton scored cell used as a concrete evaluation fixture. -/
def sampleCell : Cell := ⟨0, 0, 1 / 2, 1 / 2, 4 / 5, 0, 14 / 25, (0, 0, 1, 1)⟩


lemma jsToFixed_nonneg (d : Nat) (q : ℚ) (hq : 0 ≤ q) : 0 ≤ jsToFixed d q := by
  unfold jsToFixed
  have h10 : (0 : ℚ) < 10 ^ d := by positivity
  have hz : (0 : ℤ) ≤ ⌊q * 10 ^ d + 1 / 2⌋ := by
    apply Int.floor_nonneg.mpr
    have : (0 : ℚ) ≤ q * 10 ^ d := by positivity
    linarith
  have hq' : (0 : ℚ) ≤ (⌊q * 10 ^ d + 1 / 2⌋ : ℤ) := by exact_mod_cast hz
  positivity

lemma jsToFixed_le_one (d : Nat) (q : ℚ) (hq : q ≤ 1) : jsToFixed d q ≤ 1 := by
  unfold jsToFixed
  have h10 : (0 : ℚ) < 10 ^ d := by positivity
  have hfl : ⌊q * 10 ^ d + 1 / 2⌋ ≤ (10 ^ d : ℤ) := by
    have hlt : q * 10 ^ d + 1 / 2 < ((10 ^ d + 1 : ℤ) : ℚ) := by
      push_cast
      nlinarith
    have := Int.floor_lt.mpr hlt
    omega
  have hfl' : ((⌊q * 10 ^ d + 1 / 2⌋ : ℤ) : ℚ) ≤ 10 ^ d := by exact_mod_cast hfl
  rw [div_le_one h10]
  exact hfl'

lemma genHotspotsLoop_spec (polygon : List (ℚ × ℚ)) (count : Nat)
    (ar sr : ℚ × ℚ) (minx maxx miny maxy : ℚ) :
    ∀ (fuel a : Nat) (acc : List Hotspot) (tries : Nat),
      (∀ h ∈ acc, pointInPolygon (h.lng, h.lat) polygon = true) →
      acc.length ≤ count →
      (∀ h ∈ (genHotspotsLoop polygon count ar sr minx maxx miny maxy
          fuel a acc tries).1, pointInPolygon (h.lng, h.lat) polygon = true) ∧
      (genHotspotsLoop polygon count ar sr minx maxx miny maxy
          fuel a acc tries).1.length ≤ count ∧
      (genHotspotsLoop polygon count ar sr minx maxx miny maxy
          fuel a acc tries).2 ≤ tries + fuel ∧
      ((genHotspotsLoop polygon count ar sr minx maxx miny maxy
          fuel a acc tries).1.length = count ∨
        (genHotspotsLoop polygon count ar sr minx maxx miny maxy
          fuel a acc tries).2 = tries + fuel) := by
  intro fuel
  induction fuel with
  | zero =>
    intro a acc tries hin hlen
    refine ⟨?_, ?_, ?_, Or.inr ?_⟩
    · simpa [genHotspotsLoop] using hin
    · simpa [genHotspotsLoop] using hlen
    · simp [genHotspotsLoop]
    · simp [genHotspotsLoop]
  | succ n ih =>
    intro a acc tries hin hlen
    by_cases hc : acc.length < count
    · rw [genHotspotsLoop]
      simp only [if_pos hc]
      split
      · rename_i hp
        have hin' : ∀ h ∈ acc ++
            [(⟨minx + (mulberryStep a).2 * (maxx - minx),
              miny + (mulberryStep (mulberryStep a).1).2 * (maxy - miny),
              ar.1 + (mulberryStep (mulberryStep (mulberryStep a).1).1).2 * (ar.2 - ar.1),
              sr.1 + (mulberryStep (mulberryStep (mulberryStep (mulberryStep a).1).1).1).2 * (sr.2 - sr.1),
              Passada.pre⟩ : Hotspot)],
            pointInPolygon (h.lng, h.lat) polygon = true := by
          intro h hh
          rcases List.mem_append.mp hh with hmem | hmem
          · exact hin h hmem
          · rcases List.mem_singleton.mp hmem with rfl
            exact hp
        have hlen' : (acc ++ [(⟨minx + (mulberryStep a).2 * (maxx - minx),
              miny + (mulberryStep (mulberryStep a).1).2 * (maxy - miny),
              ar.1 + (mulberryStep (mulberryStep (mulberryStep a).1).1).2 * (ar.2 - ar.1),
              sr.1 + (mulberryStep (mulberryStep (mulberryStep (mulberryStep a).1).1).1).2 * (sr.2 - sr.1),
              Passada.pre⟩ : Hotspot)]).length ≤ count := by
          simp only [List.length_append, List.length_singleton]
          omega
        have hmain := ih (mulberryStep (mulberryStep (mulberryStep (mulberryStep a).1).1).1).1
          _ (tries + 1) hin' hlen'
        refine ⟨hmain.1, hmain.2.1, ?_, ?_⟩
        · have := hmain.2.2.1
          omega
        · rcases hmain.2.2.2 with hEq | hEq
          · exact Or.inl hEq
          · exact Or.inr (by omega)
      · rename_i hp
        have hmain := ih (mulberryStep (mulberryStep a).1).1 acc (tries + 1) hin hlen
        refine ⟨hmain.1, hmain.2.1, ?_, ?_⟩
        · have := hmain.2.2.1
          omega
        · rcases hmain.2.2.2 with hEq | hEq
          · exact Or.inl hEq
          · exact Or.inr (by omega)
    · rw [genHotspotsLoop]
      simp only [if_neg hc]
      exact ⟨hin, hlen, by omega, Or.inl (by omega)⟩



lemma forall_mem_append_singleton {α : Type _} {P : α → Prop} {l : List α}
    {x : α} (hl : ∀ p ∈ l, P p) (hx : P x) : ∀ p ∈ l ++ [x], P p := by
  intro p hp
  rcases List.mem_append.mp hp with h | h
  · exact hl p h
  · rcases List.mem_singleton.mp h with rfl
    exact hx

lemma sampleLoop_spec (M : JsMath) (polygon : List (ℚ × ℚ))
    (hotspots : List Hotspot) (target : Nat) (minx maxx miny maxy : ℚ) :
    ∀ (fuel a : Nat) (acc : List HeatPoint) (guard : Nat),
      (∀ p ∈ acc, goodSample M polygon hotspots p) →
      acc.length ≤ target →
      (∀ p ∈ (sampleLoop M polygon hotspots target minx maxx miny maxy
          fuel a acc guard).1, goodSample M polygon hotspots p) ∧
      (sampleLoop M polygon hotspots target minx maxx miny maxy
          fuel a acc guard).1.length ≤ target ∧
      (sampleLoop M polygon hotspots target minx maxx miny maxy
          fuel a acc guard).2 ≤ guard + fuel ∧
      ((sampleLoop M polygon hotspots target minx maxx miny maxy
          fuel a acc guard).1.length = target ∨
        (sampleLoop M polygon hotspots target minx maxx miny maxy
          fuel a acc guard).2 = guard + fuel) := by
  intro fuel
  induction fuel with
  | zero =>
    intro a acc guard hin hlen
    refine ⟨?_, ?_, ?_, Or.inr ?_⟩
    · simpa [sampleLoop] using hin
    · simpa [sampleLoop] using hlen
    · simp [sampleLoop]
    · simp [sampleLoop]
  | succ n ih =>
    intro a acc guard hin hlen
    by_cases hc : acc.length < target
    · rw [sampleLoop]
      simp only [if_pos hc]
      split
      · rename_i hp
        have hmain := ih (mulberryStep (mulberryStep a).1).1
          (acc ++ [(miny + (mulberryStep (mulberryStep a).1).2 * (maxy - miny),
            minx + (mulberryStep a).2 * (maxx - minx),
            jsToFixed 3 (max 0 (min 1 (heatAt M hotspots
              (minx + (mulberryStep a).2 * (maxx - minx))
              (miny + (mulberryStep (mulberryStep a).1).2 * (maxy - miny))))))])
          (guard + 1)
          (forall_mem_append_singleton hin
            ⟨hp, rfl,
              jsToFixed_nonneg 3 _ (le_max_left 0 _),
              jsToFixed_le_one 3 _ (max_le (by norm_num) (min_le_left 1 _))⟩)
          (by simp only [List.length_append, List.length_singleton]; omega)
        refine ⟨hmain.1, hmain.2.1, ?_, ?_⟩
        · have := hmain.2.2.1
          omega
        · rcases hmain.2.2.2 with hEq | hEq
          · exact Or.inl hEq
          · exact Or.inr (by omega)
      · rename_i hp
        have hmain := ih (mulberryStep (mulberryStep a).1).1 acc (guard + 1) hin hlen
        refine ⟨hmain.1, hmain.2.1, ?_, ?_⟩
        · have := hmain.2.2.1
          omega
        · rcases hmain.2.2.2 with hEq | hEq
          · exact Or.inl hEq
          · exact Or.inr (by omega)
    · rw [sampleLoop]
      simp only [if_neg hc]
      exact ⟨hin, hlen, by omega, Or.inl (by omega)⟩

lemma mulberryStep_snd_nonneg (a : Nat) : 0 ≤ (mulberryStep a).2 := by
  simp only [mulberryStep]
  positivity

lemma detStep_shift (M : JsMath) (polygon : List (ℚ × ℚ)) (h : Hotspot)
    (now : ℤ) (a i : Nat) :
    (detStep M polygon h now a i).1 = (detStep M polygon h 0 a i).1 ∧
    (detStep M polygon h now a i).2 = shiftTs now (detStep M polygon h 0 a i).2 := by
  refine ⟨rfl, ?_⟩
  simp only [detStep, shiftTs, Detection.mk.injEq, and_true, true_and]
  ring

lemma detInnerLoop_shift (M : JsMath) (polygon : List (ℚ × ℚ)) (h : Hotspot)
    (now : ℤ) : ∀ (k a i : Nat) (acc : List Detection),
    detInnerLoop M polygon h now k a i (acc.map (shiftTs now)) =
      ((detInnerLoop M polygon h 0 k a i acc).1,
        (detInnerLoop M polygon h 0 k a i acc).2.map (shiftTs now)) := by
  intro k
  induction k with
  | zero => intro a i acc; simp [detInnerLoop]
  | succ n ih =>
    intro a i acc
    simp only [detInnerLoop]
    rw [(detStep_shift M polygon h now a i).1]
    have hmap : acc.map (shiftTs now) ++ [(detStep M polygon h now a i).2] =
        (acc ++ [(detStep M polygon h 0 a i).2]).map (shiftTs now) := by
      rw [(detStep_shift M polygon h now a i).2, List.map_append]
      simp
    rw [hmap, ih]

lemma detFold_shift (M : JsMath) (polygon : List (ℚ × ℚ)) (now : ℤ) :
    ∀ (hs : List Hotspot) (a : Nat) (acc : List Detection),
    hs.foldl (detHotspot M polygon now) (a, acc.map (shiftTs now)) =
      ((hs.foldl (detHotspot M polygon 0) (a, acc)).1,
        (hs.foldl (detHotspot M polygon 0) (a, acc)).2.map (shiftTs now)) := by
  intro hs
  induction hs with
  | nil => intro a acc; simp
  | cons h rest ih =>
    intro a acc
    simp only [List.foldl_cons]
    have hstep : detHotspot M polygon now (a, acc.map (shiftTs now)) h =
        ((detHotspot M polygon 0 (a, acc) h).1,
          (detHotspot M polygon 0 (a, acc) h).2.map (shiftTs now)) := by
      simp only [detHotspot]
      exact detInnerLoop_shift M polygon h now _ _ _ acc
    rw [hstep]
    have hrec := ih (detHotspot M polygon 0 (a, acc) h).1
      (detHotspot M polygon 0 (a, acc) h).2
    rw [Prod.mk.eta] at hrec
    exact hrec

/-- Master purity lemma for `makeDetections`: the output at clock time `now`
is the output at clock time `0` with every timestamp shifted by `now`; all
other fields are independent of the clock. -/
lemma makeDetections_shift (M : JsMath) (hotspots : List Hotspot)
    (polygon : List (ℚ × ℚ)) (seed : Nat) (now : ℤ) :
    makeDetections M hotspots polygon seed now =
      (makeDetections M hotspots polygon seed 0).map (shiftTs now) := by
  unfold makeDetections detOuterLoop
  have := detFold_shift M polygon now hotspots (detectionsSeed seed) []
  simp only [List.map_nil] at this
  rw [this]

lemma detInnerLoop_length (M : JsMath) (polygon : List (ℚ × ℚ)) (h : Hotspot)
    (now : ℤ) : ∀ (k a i : Nat) (acc : List Detection),
    (detInnerLoop M polygon h now k a i acc).2.length = acc.length + k := by
  intro k
  induction k with
  | zero => intro a i acc; simp [detInnerLoop]
  | succ n ih =>
    intro a i acc
    simp only [detInnerLoop]
    rw [ih]
    simp only [List.length_append, List.length_singleton]
    omega

lemma detFold_length_le (M : JsMath) (polygon : List (ℚ × ℚ)) (now : ℤ) :
    ∀ (hs : List Hotspot) (st : Nat × List Detection),
    st.2.length ≤ (hs.foldl (detHotspot M polygon now) st).2.length := by
  intro hs
  induction hs with
  | nil => intro st; simp
  | cons h rest ih =>
    intro st
    simp only [List.foldl_cons]
    refine le_trans ?_ (ih _)
    simp only [detHotspot]
    rw [detInnerLoop_length]
    omega

/-- With at least one hotspot, `makeDetections` emits at least one detection
(the inner count `k = 1 + ⌊rnd()*3⌋` is always at least 1). -/
lemma makeDetections_ne_nil (M : JsMath) (h : Hotspot) (rest : List Hotspot)
    (polygon : List (ℚ × ℚ)) (seed : Nat) (now : ℤ) :
    makeDetections M (h :: rest) polygon seed now ≠ [] := by
  unfold makeDetections detOuterLoop
  intro hEq
  have hlen := detFold_length_le M polygon now rest
    (detHotspot M polygon now (detectionsSeed seed, []) h)
  have hk : 1 ≤ (1 + ⌊(mulberryStep (detectionsSeed seed)).2 * 3⌋).toNat := by
    have hr : (0 : ℚ) ≤ (mulberryStep (detectionsSeed seed)).2 :=
      mulberryStep_snd_nonneg _
    have hfl : (0 : ℤ) ≤ ⌊(mulberryStep (detectionsSeed seed)).2 * 3⌋ := by
      apply Int.floor_nonneg.mpr
      positivity
    omega
  have hfirst : 1 ≤ (detHotspot M polygon now (detectionsSeed seed, []) h).2.length := by
    simp only [detHotspot]
    rw [detInnerLoop_length]
    simpa using hk
  rw [List.foldl_cons] at hEq
  rw [hEq] at hlen
  simp only [List.length_nil, Nat.le_zero] at hlen
  omega

lemma xor_right_eq_self_iff (x c : Nat) : x ^^^ c = x ↔ c = 0 := by
  constructor
  · intro h
    have h2 : x ^^^ (x ^^^ c) = x ^^^ x := congrArg (x ^^^ ·) h
    rwa [← Nat.xor_assoc, Nat.xor_self, Nat.zero_xor] at h2
  · rintro rfl
    exact Nat.xor_zero x

lemma xor_right_injective (x c1 c2 : Nat) (h : x ^^^ c1 = x ^^^ c2) :
    c1 = c2 := by
  have h2 : x ^^^ (x ^^^ c1) = x ^^^ (x ^^^ c2) := congrArg (x ^^^ ·) h
  rwa [← Nat.xor_assoc, Nat.xor_self, Nat.zero_xor,
    ← Nat.xor_assoc, Nat.xor_self, Nat.zero_xor] at h2

lemma upsert_forall {P : (ℤ × ℤ) × CellAcc → Prop} (k : ℤ × ℤ)
    (f : CellAcc → CellAcc) (init : CellAcc)
    (hinit : P (k, f init)) (hf : ∀ e, P e → P (e.1, f e.2)) :
    ∀ acc : List ((ℤ × ℤ) × CellAcc), (∀ e ∈ acc, P e) →
      ∀ e ∈ upsert k f init acc, P e := by
  intro acc
  induction acc with
  | nil =>
    intro _ e he
    simp only [upsert, List.mem_singleton] at he
    rwa [he]
  | cons a rest ih =>
    intro hall e he
    simp only [upsert] at he
    by_cases hk : a.1 = k
    · rw [if_pos hk] at he
      rcases List.mem_cons.mp he with rfl | hmem
      · exact hf a (hall a (List.mem_cons_self a rest))
      · exact hall e (List.mem_cons_of_mem a hmem)
    · rw [if_neg hk] at he
      rcases List.mem_cons.mp he with rfl | hmem
      · exact hall e (List.mem_cons_self e rest)
      · exact ih (fun e' he' => hall e' (List.mem_cons_of_mem a he')) e hmem

lemma foldl_acc_preserves {α : Type _} {P : (ℤ × ℤ) × CellAcc → Prop}
    (f : List ((ℤ × ℤ) × CellAcc) → α → List ((ℤ × ℤ) × CellAcc)) :
    ∀ l : List α,
      (∀ acc x, x ∈ l → (∀ e ∈ acc, P e) → ∀ e ∈ f acc x, P e) →
      ∀ acc : List ((ℤ × ℤ) × CellAcc),
        (∀ e ∈ acc, P e) → ∀ e ∈ l.foldl f acc, P e := by
  intro l
  induction l with
  | nil => intro _ acc hall; simpa using hall
  | cons x rest ih =>
    intro hf acc hall
    simp only [List.foldl_cons]
    exact ih (fun acc' y hy => hf acc' y (List.mem_cons_of_mem x hy))
      (f acc x) (hf acc x (List.mem_cons_self x rest) hall)

/-- Accumulator invariant: the intensity sum of every cell is nonnegative and
bounded by the sample count, provided the bucketed intensities lie in
`[0, 1]`. -/
lemma accOf_bounds (g : Grid) (heatPoints : List HeatPoint)
    (dets : List Detection)
    (hw : ∀ p ∈ heatPoints, 0 ≤ p.2.2 ∧ p.2.2 ≤ 1) :
    ∀ e ∈ accOf g heatPoints dets,
      0 ≤ e.2.wSum ∧ e.2.wSum ≤ (e.2.wCount : ℚ) := by
  unfold accOf
  refine foldl_acc_preserves _ dets ?_ _
    (foldl_acc_preserves _ heatPoints ?_ [] (by simp))
  · intro acc d _ hall e he
    simp only at he
    split at he
    · exact hall e he
    · refine upsert_forall _ _ _ ?_ ?_ acc hall e he
      · exact ⟨le_refl 0, by norm_num⟩
      · intro e' he'
        exact he'
  · intro acc p hp hall e he
    obtain ⟨hw0, hw1⟩ := hw p hp
    simp only at he
    split at he
    · exact hall e he
    · refine upsert_forall _ _ _ ?_ ?_ acc hall e he
      · constructor
        · simpa using hw0
        · simpa using hw1
      · intro e' he'
        constructor
        · have := he'.1
          simp only
          positivity
        · have h1 := he'.2
          simp only
          push_cast
          push_cast at h1
          linarith

lemma foldl_max_ge (l : List ((ℤ × ℤ) × CellAcc)) :
    ∀ m : Nat, m ≤ l.foldl (fun m e => max m e.2.det) m := by
  induction l with
  | nil => intro m; simp
  | cons a rest ih =>
    intro m
    simp only [List.foldl_cons]
    exact le_trans (le_max_left m a.2.det) (ih (max m a.2.det))

lemma det_le_foldl_max (l : List ((ℤ × ℤ) × CellAcc)) :
    ∀ (m : Nat) (e : (ℤ × ℤ) × CellAcc), e ∈ l →
      e.2.det ≤ l.foldl (fun m e => max m e.2.det) m := by
  induction l with
  | nil => intro m e he; simp at he
  | cons a rest ih =>
    intro m e he
    simp only [List.foldl_cons]
    rcases List.mem_cons.mp he with rfl | hmem
    · exact le_trans (le_max_right m e.2.det) (foldl_max_ge rest _)
    · exact ih (max m a.2.det) e hmem

lemma det_le_maxDetOf (acc : List ((ℤ × ℤ) × CellAcc))
    (e : (ℤ × ℤ) × CellAcc) (he : e ∈ acc) : e.2.det ≤ maxDetOf acc :=
  det_le_foldl_max acc 0 e he

lemma wAvgOf_bounds (a : CellAcc) (h0 : 0 ≤ a.wSum)
    (h1 : a.wSum ≤ (a.wCount : ℚ)) : 0 ≤ wAvgOf a ∧ wAvgOf a ≤ 1 := by
  unfold wAvgOf
  split
  · norm_num
  · rename_i hne
    have hpos : (0 : ℚ) < (a.wCount : ℚ) := by
      have : 0 < a.wCount := Nat.pos_of_ne_zero hne
      exact_mod_cast this
    constructor
    · positivity
    · rw [div_le_one hpos]
      exact h1

lemma detNOf_bounds (maxDet det : Nat) (h : det ≤ maxDet) :
    0 ≤ detNOf maxDet det ∧ detNOf maxDet det ≤ 1 := by
  unfold detNOf
  split
  · rename_i hpos
    have hq : (0 : ℚ) < (maxDet : ℚ) := by exact_mod_cast hpos
    constructor
    · positivity
    · rw [div_le_one hq]
      exact_mod_cast h
  · norm_num

/-- Properties of every built cell: centroid inside the polygon, and score
given by the weighted blend of its own mean intensity and its own normalized
detection count; the mean and count come from some accumulator entry. -/
lemma cellsOf_mem (g : Grid) (polygon : List (ℚ × ℚ))
    (acc : List ((ℤ × ℤ) × CellAcc)) (c : Cell)
    (hc : c ∈ cellsOf g polygon acc) :
    pointInPolygon (c.lng, c.lat) polygon = true ∧
    c.score = 7 / 10 * c.wAvg + 3 / 10 * detNOf (maxDetOf acc) c.det ∧
    ∃ e ∈ acc, c.wAvg = wAvgOf e.2 ∧ c.det = e.2.det := by
  simp only [cellsOf, List.mem_filterMap] at hc
  obtain ⟨e, he, hfe⟩ := hc
  split at hfe
  · rename_i hpip
    injection hfe with hfe
    subst hfe
    refine ⟨hpip, rfl, e, he, rfl, rfl⟩
  · cases hfe

lemma bestOf_fst_lt (M : JsMath) (cur : ℚ × ℚ) :
    ∀ (l : List Cell) (i : Nat) (b : Nat × ℚ), b.1 < i →
      (bestOf M cur l i b).1 < i + l.length := by
  intro l
  induction l with
  | nil =>
    intro i b hb
    simpa [bestOf] using hb
  | cons c rest ih =>
    intro i b hb
    simp only [bestOf]
    split
    · have := ih (i + 1) (i, haversine M cur (c.lat, c.lng)) (by omega)
      simp only [List.length_cons]
      omega
    · have := ih (i + 1) b (by omega)
      simp only [List.length_cons]
      omega

lemma perm_getD_eraseIdx {α : Type _} :
    ∀ (l : List α) (i : Nat) (d : α), i < l.length →
      l.Perm (l.getD i d :: l.eraseIdx i) := by
  intro l
  induction l with
  | nil => intro i d h; simp at h
  | cons x xs ih =>
    intro i d h
    cases i with
    | zero => simp [List.getD]
    | succ n =>
      have hn : n < xs.length := by
        simpa using h
      have hxs := ih n d hn
      have h1 : (x :: xs).Perm (x :: xs.getD n d :: xs.eraseIdx n) := hxs.cons x
      have h2 := List.Perm.swap (xs.getD n d) x (xs.eraseIdx n)
      have hEq : (x :: xs).getD (n + 1) d :: (x :: xs).eraseIdx (n + 1) =
          xs.getD n d :: x :: xs.eraseIdx n := by
        simp [List.getD]
      rw [hEq]
      exact h1.trans h2

lemma greedyLoop_perm (M : JsMath) :
    ∀ (n : Nat) (l : List Cell) (cur : ℚ × ℚ), l.length = n →
      (greedyLoop M n cur l).Perm (l.map (fun c => (c.lat, c.lng))) := by
  intro n
  induction n with
  | zero =>
    intro l cur hl
    rcases List.length_eq_zero.mp hl with rfl
    simp [greedyLoop]
  | succ m ih =>
    intro l cur hl
    cases l with
    | nil => simp at hl
    | cons r rest =>
      simp only [greedyLoop]
      have hbi : (bestOf M cur rest 1 (0, haversine M cur (r.lat, r.lng))).1 <
          (r :: rest).length := by
        have hbb := bestOf_fst_lt M cur rest 1
          (0, haversine M cur (r.lat, r.lng)) (by omega)
        simp only [List.length_cons]
        omega
      have hperm1 := perm_getD_eraseIdx (r :: rest)
        (bestOf M cur rest 1 (0, haversine M cur (r.lat, r.lng))).1 r hbi
      have hrem_len : ((r :: rest).eraseIdx
          (bestOf M cur rest 1 (0, haversine M cur (r.lat, r.lng))).1).length = m := by
        rw [List.length_eraseIdx]
        simp only [if_pos hbi]
        simp only [List.length_cons] at hl ⊢
        omega
      have hrec := ih ((r :: rest).eraseIdx
          (bestOf M cur rest 1 (0, haversine M cur (r.lat, r.lng))).1)
        (((r :: rest).getD
            (bestOf M cur rest 1 (0, haversine M cur (r.lat, r.lng))).1 r).lat,
          ((r :: rest).getD
            (bestOf M cur rest 1 (0, haversine M cur (r.lat, r.lng))).1 r).lng)
        hrem_len
      refine List.Perm.trans (hrec.cons _) ?_
      have := (hperm1.symm).map (fun c => (c.lat, c.lng))
      simpa using this

/-- The route is a permutation of the selected centroids. -/
lemma pathOf_perm (M : JsMath) (selected : List Cell) :
    (pathOf M selected).Perm (selected.map (fun c => (c.lat, c.lng))) := by
  cases selected with
  | nil => simp [pathOf]
  | cons c0 rest =>
    simp only [pathOf, List.map_cons]
    exact (greedyLoop_perm M rest.length rest (c0.lat, c0.lng) rfl).cons _

lemma pathOf_length (M : JsMath) (selected : List Cell) :
    (pathOf M selected).length = selected.length := by
  have := (pathOf_perm M selected).length_eq
  simpa using this

/-- Unfolding of `routeData` on nonempty heat input. -/
lemma routeData_eq (M : JsMath) (heatPoints : List HeatPoint)
    (activeDetections : List Detection) (polygon : List (ℚ × ℚ))
    (gridSize : ℚ) (topN : Nat) (hne : heatPoints ≠ []) :
    routeData M heatPoints activeDetections polygon gridSize topN =
      ⟨(cellsOf (gridOf M polygon gridSize) polygon
          (accOf (gridOf M polygon gridSize) heatPoints activeDetections)).mergeSort
            (fun a b => decide (b.score ≤ a.score)),
        ((cellsOf (gridOf M polygon gridSize) polygon
          (accOf (gridOf M polygon gridSize) heatPoints activeDetections)).mergeSort
            (fun a b => decide (b.score ≤ a.score))).take
          (min topN
            ((cellsOf (gridOf M polygon gridSize) polygon
              (accOf (gridOf M polygon gridSize) heatPoints
                activeDetections)).mergeSort
                  (fun a b => decide (b.score ≤ a.score))).length),
        pathOf M
          (((cellsOf (gridOf M polygon gridSize) polygon
            (accOf (gridOf M polygon gridSize) heatPoints
              activeDetections)).mergeSort
                (fun a b => decide (b.score ≤ a.score))).take
            (min topN
              ((cellsOf (gridOf M polygon gridSize) polygon
                (accOf (gridOf M polygon gridSize) heatPoints
                  activeDetections)).mergeSort
                    (fun a b => decide (b.score ≤ a.score))).length))⟩ := by
  rw [routeData, if_neg hne]

lemma shiftTs_shiftTs (a b : ℤ) (d : Detection) :
    shiftTs b (shiftTs a d) = shiftTs (a + b) d := by
  simp only [shiftTs, Detection.mk.injEq, and_true, true_and]
  omega

lemma genHotspotsLoop_count_zero (polygon : List (ℚ × ℚ)) (ar sr : ℚ × ℚ)
    (minx maxx miny maxy : ℚ) (fuel a : Nat) (acc : List Hotspot)
    (tries : Nat) :
    genHotspotsLoop polygon 0 ar sr minx maxx miny maxy fuel a acc tries =
      (acc, tries) := by
  cases fuel with
  | zero => simp [genHotspotsLoop]
  | succ n => simp [genHotspotsLoop]

/-- With a requested count of zero, no hotspot is generated. -/
lemma generateHotspots_count_zero (polygon : List (ℚ × ℚ)) (seed : Nat)
    (ar sr : ℚ × ℚ) : generateHotspots polygon 0 seed ar sr = [] := by
  unfold generateHotspots generateHotspotsI
  rw [genHotspotsLoop_count_zero]

lemma jsToFixed_zero (d : Nat) : jsToFixed d 0 = 0 := by
  unfold jsToFixed
  rw [zero_mul, zero_add]
  rw [show ⌊(1 : ℚ) / 2⌋ = 0 by norm_num]
  simp

/-- All-zero intensities give zero coverage. -/
lemma coverage_all_zero (heatPoints : List HeatPoint)
    (hz : ∀ p ∈ heatPoints, p.2.2 = 0) : coverage heatPoints = 0 := by
  unfold coverage
  split
  · rfl
  · rename_i hne
    have hfilter : heatPoints.filter (fun p => threshold ≤ p.2.2) = [] := by
      apply List.filter_eq_nil_iff.mpr
      intro p hp
      rw [hz p hp]
      simp only [threshold, decide_eq_true_eq]
      norm_num
    rw [hfilter]
    simp only [List.length_nil, Nat.cast_zero]
    rw [zero_div, zero_mul, jsToFixed_zero]

lemma riskLabel_zero : (riskLabel 0).1 = "Baixo" := by
  unfold riskLabel
  norm_num

lemma coverage_nil : coverage [] = 0 := rfl

lemma meanIntensity_nil : meanIntensity [] = 0 := rfl

lemma density_zero_hotspots (areaHa : ℚ) : density 0 areaHa = 0 := by
  unfold density
  rw [Nat.cast_zero, zero_div, jsToFixed_zero]


lemma sampleLoop_exit (M : JsMath) (polygon : List (ℚ × ℚ))
    (hotspots : List Hotspot) (target : Nat) (minx maxx miny maxy : ℚ)
    (fuel a : Nat) (acc : List HeatPoint) (guard : Nat)
    (h : ¬ acc.length < target) :
    sampleLoop M polygon hotspots target minx maxx miny maxy fuel a acc guard =
      (acc, guard) := by
  cases fuel with
  | zero => simp [sampleLoop]
  | succ n => simp [sampleLoop, h]

lemma genHotspotsLoop_exit (polygon : List (ℚ × ℚ)) (count : Nat)
    (ar sr : ℚ × ℚ) (minx maxx miny maxy : ℚ) (fuel a : Nat)
    (acc : List Hotspot) (tries : Nat) (h : ¬ acc.length < count) :
    genHotspotsLoop polygon count ar sr minx maxx miny maxy fuel a acc tries =
      (acc, tries) := by
  cases fuel with
  | zero => simp [genHotspotsLoop]
  | succ n => simp [genHotspotsLoop, h]

/-- Concrete evaluation: one heat sample on the unit square with no hotspots
and seed 1 (the first drawn point is accepted; its intensity is 0). -/
lemma sampleHeatPoints_eval :
    sampleHeatPoints idMath unitSquare [] 1 1 =
      [(424487787 / 2147483648, 137364677 / 268435456, 0)] := by
  have hs1 : mulberryStep 2654435760 =
      (191034277, (137364677 : ℚ) / 268435456) := by
    simp [mulberryStep] <;> norm_num
  have hs2 : mulberryStep 191034277 =
      (2022600090, (424487787 : ℚ) / 2147483648) := by
    simp [mulberryStep] <;> norm_num
  have hpip : pointInPolygon
      (137364677 / 268435456, 424487787 / 2147483648) unitSquare = true := by
    norm_num [pointInPolygon, unitSquare,
      show List.range 4 = [0, 1, 2, 3] from rfl, List.getD]
  have hseed : samplesSeed 1 = 2654435760 := by simp [samplesSeed]
  have hminx : jsMin (unitSquare.map (·.1)) = 0 := by
    norm_num [jsMin, unitSquare, min_def]
  have hmaxx : jsMax (unitSquare.map (·.1)) = 1 := by
    norm_num [jsMax, unitSquare, max_def]
  have hminy : jsMin (unitSquare.map (·.2)) = 0 := by
    norm_num [jsMin, unitSquare, min_def]
  have hmaxy : jsMax (unitSquare.map (·.2)) = 1 := by
    norm_num [jsMax, unitSquare, max_def]
  unfold sampleHeatPoints sampleHeatPointsI
  dsimp only
  rw [hseed, hminx, hmaxx, hminy, hmaxy,
    show min (1 : Nat) 30000 = 1 from by norm_num,
    show (1 : Nat) * 20 = 19 + 1 from by norm_num, sampleLoop]
  norm_num [hs1, hs2, hpip, heatAt, jsToFixed]
  rw [sampleLoop_exit]
  norm_num

/-- Concrete evaluation: one hotspot on the unit square with seed 1 and
ranges `(0.6, 1)` and `(25, 80)` (the first drawn point is accepted). -/
lemma generateHotspots_eval :
    generateHotspots unitSquare 1 1 (3 / 5, 1) (25, 80) =
      [⟨2693262067 / 4294967296, 11749833 / 4294967296,
        8707818731 / 10737418240, 339121182555 / 4294967296, Passada.pre⟩] := by
  have hg1 : mulberryStep 1 = (1831565814, (2693262067 : ℚ) / 4294967296) := by
    simp [mulberryStep] <;> norm_num
  have hg2 : mulberryStep 1831565814 =
      (3663131627, (11749833 : ℚ) / 4294967296) := by
    simp [mulberryStep] <;> norm_num
  have hg3 : mulberryStep 3663131627 =
      (1199730144, (2265367787 : ℚ) / 4294967296) := by
    simp [mulberryStep] <;> norm_num
  have hg4 : mulberryStep 1199730144 =
      (3031295957, (4213581821 : ℚ) / 4294967296) := by
    simp [mulberryStep] <;> norm_num
  have hpip : pointInPolygon
      (2693262067 / 4294967296, 11749833 / 4294967296) unitSquare = true := by
    norm_num [pointInPolygon, unitSquare,
      show List.range 4 = [0, 1, 2, 3] from rfl, List.getD]
  have hminx : jsMin (unitSquare.map (·.1)) = 0 := by
    norm_num [jsMin, unitSquare, min_def]
  have hmaxx : jsMax (unitSquare.map (·.1)) = 1 := by
    norm_num [jsMax, unitSquare, max_def]
  have hminy : jsMin (unitSquare.map (·.2)) = 0 := by
    norm_num [jsMin, unitSquare, min_def]
  have hmaxy : jsMax (unitSquare.map (·.2)) = 1 := by
    norm_num [jsMax, unitSquare, max_def]
  unfold generateHotspots generateHotspotsI hotspotsSeed
  dsimp only
  rw [hminx, hmaxx, hminy, hmaxy,
    show (5000 : Nat) = 4999 + 1 from rfl, genHotspotsLoop]
  norm_num [hg1, hg2, hg3, hg4, hpip]
  rw [genHotspotsLoop_exit]
  norm_num

lemma gridOf_eval :
    gridOf idMath unitSquare 111320 = ⟨0, 1, 0, 1, 1, 1, 1, 1⟩ := by
  norm_num [gridOf, unitSquare, jsMin, jsMax, min_def, max_def,
    metersToDegreesLng, metersToDegreesLat, idMath]

lemma accOf_eval :
    accOf ⟨0, 1, 0, 1, 1, 1, 1, 1⟩ [(1 / 2, 1 / 2, 4 / 5)] [] =
      [((0, 0), ⟨4 / 5, 1, 0⟩)] := by
  norm_num [accOf, upsert]

lemma hpip_half : pointInPolygon (1 / 2, 1 / 2) unitSquare = true := by
  norm_num [pointInPolygon, unitSquare,
    show List.range 4 = [0, 1, 2, 3] from rfl, List.getD]

lemma cellsOf_eval :
    cellsOf ⟨0, 1, 0, 1, 1, 1, 1, 1⟩ unitSquare [((0, 0), ⟨4 / 5, 1, 0⟩)] =
      [sampleCell] := by
  norm_num [cellsOf, maxDetOf, wAvgOf, detNOf, hpip_half, sampleCell,
    List.filterMap_cons, List.filterMap_nil]

/-- Concrete evaluation of the full aggregation and routing on a one-sample,
one-cell scenario over the unit square. -/
lemma routeData_eval :
    routeData idMath [(1 / 2, 1 / 2, 4 / 5)] [] unitSquare 111320 1 =
      ⟨[sampleCell], [sampleCell], [(1 / 2, 1 / 2)]⟩ := by
  rw [routeData_eq idMath [(1 / 2, 1 / 2, 4 / 5)] [] unitSquare 111320 1
    (by simp)]
  rw [gridOf_eval, accOf_eval, cellsOf_eval]
  norm_num [List.mergeSort, pathOf, greedyLoop, sampleCell]


/-- Every returned heat sample satisfies the full per-sample property. -/
lemma sampleHeatPoints_good (M : JsMath) (polygon : List (ℚ × ℚ))
    (hotspots : List Hotspot) (seed samples : Nat) :
    ∀ p ∈ sampleHeatPoints M polygon hotspots seed samples,
      goodSample M polygon hotspots p := by
  have hspec := sampleLoop_spec M polygon hotspots (min samples 30000)
    (jsMin (polygon.map (·.1))) (jsMax (polygon.map (·.1)))
    (jsMin (polygon.map (·.2))) (jsMax (polygon.map (·.2)))
    (min samples 30000 * 20) (samplesSeed seed) [] 0 (by simp) (by simp)
  intro p hp
  exact hspec.1 p hp

/-- C1 (amended): for every seed, two instantiations of `mulberry32` with the
same seed produce identical float sequences, and `generateHotspots` and
`sampleHeatPoints` are pure functions of their arguments; `makeDetections` is
pure given additionally the clock reading `Date.now()`: outputs at two clock
times agree on every field except the timestamp `ts`, which is shifted by the
clock difference. -/
theorem C1_determinism :
    (∀ s1 s2 n : Nat, s1 = s2 → mulberrySeq s1 n = mulberrySeq s2 n) ∧
    (∀ (p1 p2 : List (ℚ × ℚ)) (c1 c2 s1 s2 : Nat) (a1 a2 r1 r2 : ℚ × ℚ),
      p1 = p2 → c1 = c2 → s1 = s2 → a1 = a2 → r1 = r2 →
      generateHotspots p1 c1 s1 a1 r1 = generateHotspots p2 c2 s2 a2 r2) ∧
    (∀ (M1 M2 : JsMath) (p1 p2 : List (ℚ × ℚ)) (h1 h2 : List Hotspot)
      (s1 s2 n1 n2 : Nat),
      M1 = M2 → p1 = p2 → h1 = h2 → s1 = s2 → n1 = n2 →
      sampleHeatPoints M1 p1 h1 s1 n1 = sampleHeatPoints M2 p2 h2 s2 n2) ∧
    (∀ (M : JsMath) (hs : List Hotspot) (p : List (ℚ × ℚ)) (s : Nat)
      (now1 now2 : ℤ),
      makeDetections M hs p s now1 =
        (makeDetections M hs p s now2).map (shiftTs (now1 - now2))) := by
  refine ⟨?_, ?_, ?_, ?_⟩
  · rintro s1 s2 n rfl
    rfl
  · rintro p1 p2 c1 c2 s1 s2 a1 a2 r1 r2 rfl rfl rfl rfl rfl
    rfl
  · rintro M1 M2 p1 p2 h1 h2 s1 s2 n1 n2 rfl rfl rfl rfl rfl
    rfl
  · intro M hs p s now1 now2
    rw [makeDetections_shift M hs p s now1, makeDetections_shift M hs p s now2,
      List.map_map]
    apply List.map_congr_left
    intro d _
    simp only [Function.comp_apply]
    rw [shiftTs_shiftTs]
    congr 1
    omega

/-- C1 witness: the amended determinism theorem applied at concrete inputs. -/
theorem C1_determinism_witness :
    mulberrySeq 7 3 = mulberrySeq 7 3 ∧
    makeDetections idMath [] unitSquare 1 5 =
      (makeDetections idMath [] unitSquare 1 2).map (shiftTs 3) :=
  ⟨C1_determinism.1 7 7 3 rfl,
    by
      have := C1_determinism.2.2.2 idMath [] unitSquare 1 5 2
      simpa using this⟩

/-- C1 counterexample: `makeDetections` called twice with equal hotspots,
polygon and seed, but at two different clock times, returns different lists
(the claim as stated, purity in the listed arguments alone, is false). -/
theorem C1_clock_counterexample :
    makeDetections idMath [⟨0, 0, 1, 50, Passada.pre⟩] unitSquare 1 0 ≠
      makeDetections idMath [⟨0, 0, 1, 50, Passada.pre⟩] unitSquare 1 3600000 := by
  intro hEq
  have hshift := makeDetections_shift idMath [⟨0, 0, 1, 50, Passada.pre⟩]
    unitSquare 1 3600000
  have hzero : makeDetections idMath [⟨0, 0, 1, 50, Passada.pre⟩]
      unitSquare 1 0 =
      (makeDetections idMath [⟨0, 0, 1, 50, Passada.pre⟩] unitSquare 1 0).map
        (shiftTs 0) := by
    apply (makeDetections_shift idMath [⟨0, 0, 1, 50, Passada.pre⟩]
      unitSquare 1 0).trans
    rfl
  have hne := makeDetections_ne_nil idMath ⟨0, 0, 1, 50, Passada.pre⟩ []
    unitSquare 1 0
  obtain ⟨d, rest, hL⟩ := List.exists_cons_of_ne_nil hne
  rw [hshift, hL] at hEq
  simp only [List.map_cons, List.cons.injEq] at hEq
  have hts := congrArg Detection.ts hEq.1
  simp only [shiftTs] at hts
  omega

/-- C2: every hotspot returned by `generateHotspots` lies inside the polygon
according to `pointInPolygon`, and at most `count` hotspots are returned. -/
theorem C2_hotspots_inside (polygon : List (ℚ × ℚ)) (count seed : Nat)
    (ar sr : ℚ × ℚ) :
    (∀ h ∈ generateHotspots polygon count seed ar sr,
      pointInPolygon (h.lng, h.lat) polygon = true) ∧
    (generateHotspots polygon count seed ar sr).length ≤ count := by
  have hspec := genHotspotsLoop_spec polygon count ar sr
    (jsMin (polygon.map (·.1))) (jsMax (polygon.map (·.1)))
    (jsMin (polygon.map (·.2))) (jsMax (polygon.map (·.2)))
    5000 (hotspotsSeed seed) [] 0 (by simp) (by simp)
  unfold generateHotspots generateHotspotsI
  exact ⟨hspec.1, hspec.2.1⟩

/-- C3: every heat sample lies inside the polygon, its intensity is exactly
the clamped Gaussian sum rounded to three decimals, and hence lies in
`[0, 1]`. -/
theorem C3_sample_intensity (M : JsMath) (polygon : List (ℚ × ℚ))
    (hotspots : List Hotspot) (seed samples : Nat) :
    ∀ p ∈ sampleHeatPoints M polygon hotspots seed samples,
      pointInPolygon (p.2.1, p.1) polygon = true ∧
      p.2.2 = jsToFixed 3 (max 0 (min 1 (heatAt M hotspots p.2.1 p.1))) ∧
      0 ≤ p.2.2 ∧ p.2.2 ≤ 1 := by
  intro p hp
  exact sampleHeatPoints_good M polygon hotspots seed samples p hp

/-- C4 (amended): `sampleHeatPoints` and `makeDetections` seed their PRNGs by
XOR with the distinct odd constants `0x9e3779b1` and `0x1b873593`, while
`generateHotspots` seeds with the base seed itself (no XOR); for every seed
the three initial 32-bit states are pairwise distinct. -/
theorem C4_stream_seeds :
    ∀ seed : Nat,
      hotspotsSeed seed = seed ∧
      samplesSeed seed = seed % 4294967296 ^^^ 0x9e3779b1 ∧
      detectionsSeed seed = seed % 4294967296 ^^^ 0x1b873593 ∧
      (0x9e3779b1 : Nat) % 2 = 1 ∧
      (0x1b873593 : Nat) % 2 = 1 ∧
      (0x9e3779b1 : Nat) ≠ 0x1b873593 ∧
      hotspotsSeed seed % 4294967296 ≠ samplesSeed seed ∧
      hotspotsSeed seed % 4294967296 ≠ detectionsSeed seed ∧
      samplesSeed seed ≠ detectionsSeed seed := by
  intro seed
  refine ⟨rfl, rfl, rfl, by norm_num, by norm_num, by norm_num, ?_, ?_, ?_⟩
  · intro h
    have := (xor_right_eq_self_iff (seed % 4294967296) 0x9e3779b1).mp h.symm
    norm_num at this
  · intro h
    have := (xor_right_eq_self_iff (seed % 4294967296) 0x1b873593).mp h.symm
    norm_num at this
  · intro h
    have := xor_right_injective (seed % 4294967296) 0x9e3779b1 0x1b873593 h
    norm_num at this

/-- C4 counterexample: there is no odd constant `c` such that the hotspot
generator PRNG state is `seed XOR c` for every seed (the code passes the
seed unchanged, and an odd constant cannot be `0`). -/
theorem C4_hotspots_no_xor_counterexample :
    ¬ ∃ c : Nat, c % 2 = 1 ∧ ∀ seed : Nat, hotspotsSeed seed = seed ^^^ c := by
  rintro ⟨c, hodd, hall⟩
  have h0 := hall 0
  simp only [hotspotsSeed, Nat.zero_xor] at h0
  omega

/-- C5: `sampleHeatPoints` returns at most `min(samples, 30000)` points; the
target count is clamped before the loop runs. -/
theorem C5_sample_cap (M : JsMath) (polygon : List (ℚ × ℚ))
    (hotspots : List Hotspot) (seed samples : Nat) :
    (sampleHeatPoints M polygon hotspots seed samples).length ≤
      min samples 30000 := by
  have hspec := sampleLoop_spec M polygon hotspots (min samples 30000)
    (jsMin (polygon.map (·.1))) (jsMax (polygon.map (·.1)))
    (jsMin (polygon.map (·.2))) (jsMax (polygon.map (·.2)))
    (min samples 30000 * 20) (samplesSeed seed) [] 0 (by simp) (by simp)
  exact hspec.2.1

/-- C8: the hotspot loop performs at most 5000 iterations and the sampling
loop at most `target * 20` iterations; each loop ends either because the
requested number of elements was produced or because the attempt cap was hit,
returning the partial list accumulated so far (the functions are total). -/
theorem C8_bounded_iteration :
    (∀ (polygon : List (ℚ × ℚ)) (count seed : Nat) (ar sr : ℚ × ℚ),
      (generateHotspotsI polygon count seed ar sr).2 ≤ 5000 ∧
      ((generateHotspotsI polygon count seed ar sr).1.length = count ∨
        (generateHotspotsI polygon count seed ar sr).2 = 5000)) ∧
    (∀ (M : JsMath) (polygon : List (ℚ × ℚ)) (hotspots : List Hotspot)
      (seed samples : Nat),
      (sampleHeatPointsI M polygon hotspots seed samples).2 ≤
        min samples 30000 * 20 ∧
      ((sampleHeatPointsI M polygon hotspots seed samples).1.length =
          min samples 30000 ∨
        (sampleHeatPointsI M polygon hotspots seed samples).2 =
          min samples 30000 * 20)) := by
  constructor
  · intro polygon count seed ar sr
    have hspec := genHotspotsLoop_spec polygon count ar sr
      (jsMin (polygon.map (·.1))) (jsMax (polygon.map (·.1)))
      (jsMin (polygon.map (·.2))) (jsMax (polygon.map (·.2)))
      5000 (hotspotsSeed seed) [] 0 (by simp) (by simp)
    unfold generateHotspotsI
    exact ⟨by simpa using hspec.2.2.1, by simpa using hspec.2.2.2⟩
  · intro M polygon hotspots seed samples
    have hspec := sampleLoop_spec M polygon hotspots (min samples 30000)
      (jsMin (polygon.map (·.1))) (jsMax (polygon.map (·.1)))
      (jsMin (polygon.map (·.2))) (jsMax (polygon.map (·.2)))
      (min samples 30000 * 20) (samplesSeed seed) [] 0 (by simp) (by simp)
    unfold sampleHeatPointsI
    exact ⟨by simpa using hspec.2.2.1, by simpa using hspec.2.2.2⟩

/-- C6: every cell kept by the grid aggregation has its centroid inside the
polygon (cells outside are discarded); each kept cell scores
`0.7 · wAvg + 0.3 · det/maxDet` (detection term `0` when no cell has a
detection); the cell list is sorted by score descending, and the selection is
exactly the first `min(topN, number of cells)` of it. -/
theorem C6_grid_aggregation (M : JsMath) (heatPoints : List HeatPoint)
    (activeDetections : List Detection) (polygon : List (ℚ × ℚ))
    (gridSize : ℚ) (topN : Nat) :
    (∀ c ∈ (routeData M heatPoints activeDetections polygon gridSize topN).cells,
      pointInPolygon (c.lng, c.lat) polygon = true ∧
      c.score = 7 / 10 * c.wAvg +
        3 / 10 * detNOf
          (maxDetOf (accOf (gridOf M polygon gridSize) heatPoints
            activeDetections)) c.det) ∧
    List.Pairwise (fun a b => b.score ≤ a.score)
      (routeData M heatPoints activeDetections polygon gridSize topN).cells ∧
    (routeData M heatPoints activeDetections polygon gridSize topN).selected =
      (routeData M heatPoints activeDetections polygon gridSize topN).cells.take
        (min topN
          (routeData M heatPoints activeDetections polygon gridSize
            topN).cells.length) ∧
    (routeData M heatPoints activeDetections polygon gridSize
        topN).selected.length =
      min topN
        (routeData M heatPoints activeDetections polygon gridSize
          topN).cells.length := by
  by_cases hne : heatPoints = []
  · subst hne
    refine ⟨?_, ?_, ?_, ?_⟩
    · intro c hc
      simp [routeData] at hc
    · simp [routeData]
    · simp [routeData]
    · simp [routeData]
  · rw [routeData_eq M heatPoints activeDetections polygon gridSize topN hne]
    refine ⟨?_, ?_, rfl, ?_⟩
    · intro c hc
      have hmem : c ∈ cellsOf (gridOf M polygon gridSize) polygon
          (accOf (gridOf M polygon gridSize) heatPoints activeDetections) :=
        (List.mergeSort_perm _ _).subset hc
      have hprops := cellsOf_mem _ _ _ c hmem
      exact ⟨hprops.1, hprops.2.1⟩
    · have hsorted := @List.sorted_mergeSort Cell
        (fun a b => decide (b.score ≤ a.score))
        (fun a b c hab hbc => by
          simp only [decide_eq_true_eq] at hab hbc ⊢
          exact le_trans hbc hab)
        (fun a b => by
          simp only [Bool.or_eq_true, decide_eq_true_eq]
          exact le_total b.score a.score)
        (cellsOf (gridOf M polygon gridSize) polygon
          (accOf (gridOf M polygon gridSize) heatPoints activeDetections))
      exact hsorted.imp (fun hab => by simpa using hab)
    · dsimp only
      rw [List.length_take]
      omega

/-- C7: the route has exactly `min(topN, number of scored cells)` points and
is a permutation of the selected cell centroids; `topN = 0` yields an empty
selection and an empty route. -/
theorem C7_route_invariant (M : JsMath) (heatPoints : List HeatPoint)
    (activeDetections : List Detection) (polygon : List (ℚ × ℚ))
    (gridSize : ℚ) (topN : Nat) :
    (routeData M heatPoints activeDetections polygon gridSize topN).path.Perm
      ((routeData M heatPoints activeDetections polygon gridSize
        topN).selected.map (fun c => (c.lat, c.lng))) ∧
    (routeData M heatPoints activeDetections polygon gridSize
        topN).path.length =
      (routeData M heatPoints activeDetections polygon gridSize
        topN).selected.length ∧
    (routeData M heatPoints activeDetections polygon gridSize
        topN).selected.length =
      min topN
        (routeData M heatPoints activeDetections polygon gridSize
          topN).cells.length ∧
    (topN = 0 →
      (routeData M heatPoints activeDetections polygon gridSize
        topN).selected = [] ∧
      (routeData M heatPoints activeDetections polygon gridSize
        topN).path = []) := by
  by_cases hne : heatPoints = []
  · subst hne
    refine ⟨?_, ?_, ?_, ?_⟩
    · simp [routeData]
    · simp [routeData]
    · simp [routeData]
    · intro _
      simp [routeData]
  · rw [routeData_eq M heatPoints activeDetections polygon gridSize topN hne]
    refine ⟨pathOf_perm M _, pathOf_length M _, ?_, ?_⟩
    · dsimp only
      rw [List.length_take]
      omega
    · rintro rfl
      simp [pathOf]

/-- C9: empty inputs are valid zero-output cases: a zero hotspot count
generates no hotspots; with no hotspots every sample intensity is `0`; for
the unit-square scenario with hotspot count `0` the coverage is `0` and the
risk label is "Baixo"; the aggregates default to `0` on empty input. -/
theorem C9_empty_inputs :
    (∀ (polygon : List (ℚ × ℚ)) (seed : Nat) (ar sr : ℚ × ℚ),
      generateHotspots polygon 0 seed ar sr = []) ∧
    (∀ (M : JsMath) (polygon : List (ℚ × ℚ)) (seed samples : Nat),
      ∀ p ∈ sampleHeatPoints M polygon [] seed samples, p.2.2 = 0) ∧
    (∀ (M : JsMath) (seed seedH samples : Nat) (ar sr : ℚ × ℚ),
      coverage (sampleHeatPoints M unitSquare
        (generateHotspots unitSquare 0 seedH ar sr) seed samples) = 0 ∧
      (riskLabel (coverage (sampleHeatPoints M unitSquare
        (generateHotspots unitSquare 0 seedH ar sr) seed samples))).1 =
        "Baixo") ∧
    coverage [] = 0 ∧ meanIntensity [] = 0 ∧
    (∀ areaHa : ℚ, density 0 areaHa = 0) := by
  have hzero : ∀ (M : JsMath) (polygon : List (ℚ × ℚ)) (seed samples : Nat),
      ∀ p ∈ sampleHeatPoints M polygon [] seed samples, p.2.2 = 0 := by
    intro M polygon seed samples p hp
    obtain ⟨_, heq, _, _⟩ := sampleHeatPoints_good M polygon [] seed samples p hp
    rw [heq]
    show jsToFixed 3 (max 0 (min 1 (heatAt M [] p.2.1 p.1))) = 0
    have : heatAt M [] p.2.1 p.1 = 0 := rfl
    rw [this]
    norm_num
    exact jsToFixed_zero 3
  refine ⟨?_, hzero, ?_, coverage_nil, meanIntensity_nil, density_zero_hotspots⟩
  · intro polygon seed ar sr
    exact generateHotspots_count_zero polygon seed ar sr
  · intro M seed seedH samples ar sr
    rw [generateHotspots_count_zero unitSquare seedH ar sr]
    have hcov := coverage_all_zero
      (sampleHeatPoints M unitSquare [] seed samples)
      (hzero M unitSquare seed samples)
    refine ⟨hcov, ?_⟩
    rw [hcov]
    exact riskLabel_zero

/-- C10: the per-cell mean intensity is guarded against division by zero
(detection-only cells get mean `0`), and when all sample intensities lie in
`[0, 1]` every cell has `wAvg ∈ [0, 1]` and `score ∈ [0, 1]`. -/
theorem C10_cell_invariants :
    (∀ a : CellAcc, a.wCount = 0 → wAvgOf a = 0) ∧
    (∀ (M : JsMath) (heatPoints : List HeatPoint) (dets : List Detection)
      (polygon : List (ℚ × ℚ)) (gridSize : ℚ) (topN : Nat),
      (∀ p ∈ heatPoints, 0 ≤ p.2.2 ∧ p.2.2 ≤ 1) →
      ∀ c ∈ (routeData M heatPoints dets polygon gridSize topN).cells,
        0 ≤ c.wAvg ∧ c.wAvg ≤ 1 ∧ 0 ≤ c.score ∧ c.score ≤ 1) := by
  constructor
  · intro a ha
    unfold wAvgOf
    rw [if_pos ha]
  · intro M heatPoints dets polygon gridSize topN hw c hc
    by_cases hne : heatPoints = []
    · subst hne
      simp [routeData] at hc
    · rw [routeData_eq M heatPoints dets polygon gridSize topN hne] at hc
      have hmem : c ∈ cellsOf (gridOf M polygon gridSize) polygon
          (accOf (gridOf M polygon gridSize) heatPoints dets) :=
        (List.mergeSort_perm _ _).subset hc
      have hprops := cellsOf_mem _ _ _ c hmem
      obtain ⟨e, he, hwAvg, hdet⟩ := hprops.2.2
      have hbounds := accOf_bounds (gridOf M polygon gridSize) heatPoints dets
        hw e he
      have hAvg := wAvgOf_bounds e.2 hbounds.1 hbounds.2
      have hDetLe := det_le_maxDetOf _ e he
      have hDetN := detNOf_bounds
        (maxDetOf (accOf (gridOf M polygon gridSize) heatPoints dets))
        e.2.det hDetLe
      refine ⟨?_, ?_, ?_, ?_⟩
      · rw [hwAvg]
        exact hAvg.1
      · rw [hwAvg]
        exact hAvg.2
      · rw [hprops.2.1, hwAvg, hdet]
        nlinarith [hAvg.1, hDetN.1]
      · rw [hprops.2.1, hwAvg, hdet]
        nlinarith [hAvg.1, hAvg.2, hDetN.1, hDetN.2]


set_option maxHeartbeats 1000000

/-- C2 witness: the inside-the-polygon theorem applied to the concrete
hotspot generated for the unit square with seed 1. -/
theorem C2_hotspots_inside_witness :
    pointInPolygon
      ((2693262067 : ℚ) / 4294967296, (11749833 : ℚ) / 4294967296)
      unitSquare = true ∧
    (generateHotspots unitSquare 1 1 (3 / 5, 1) (25, 80)).length ≤ 1 := by
  constructor
  · have hmem : (⟨2693262067 / 4294967296, 11749833 / 4294967296,
        8707818731 / 10737418240, 339121182555 / 4294967296,
        Passada.pre⟩ : Hotspot) ∈
        generateHotspots unitSquare 1 1 (3 / 5, 1) (25, 80) := by
      rw [generateHotspots_eval]
      exact List.mem_singleton_self _
    have hth := (C2_hotspots_inside unitSquare 1 1 (3 / 5, 1) (25, 80)).1 _ hmem
    exact hth
  · have hth := (C2_hotspots_inside unitSquare 1 1 (3 / 5, 1) (25, 80)).2
    exact hth

/-- C3 witness: the intensity theorem applied to the concrete heat sample
generated on the unit square with no hotspots and seed 1. -/
theorem C3_sample_intensity_witness :
    pointInPolygon
      ((137364677 : ℚ) / 268435456, (424487787 : ℚ) / 2147483648)
      unitSquare = true ∧
    (0 : ℚ) = jsToFixed 3 (max 0 (min 1
      (heatAt idMath [] (137364677 / 268435456) (424487787 / 2147483648)))) ∧
    (0 : ℚ) ≤ 0 ∧ (0 : ℚ) ≤ 1 := by
  have hmem : ((424487787 : ℚ) / 2147483648, (137364677 : ℚ) / 268435456,
      (0 : ℚ)) ∈ sampleHeatPoints idMath unitSquare [] 1 1 := by
    rw [sampleHeatPoints_eval]
    exact List.mem_singleton_self _
  have hth := C3_sample_intensity idMath unitSquare [] 1 1 _ hmem
  exact hth

/-- C6 witness: the aggregation theorem applied to the one-cell scenario. -/
theorem C6_grid_aggregation_witness :
    pointInPolygon (sampleCell.lng, sampleCell.lat) unitSquare = true ∧
    (routeData idMath [(1 / 2, 1 / 2, 4 / 5)] [] unitSquare 111320 1).selected =
      (routeData idMath [(1 / 2, 1 / 2, 4 / 5)] [] unitSquare
        111320 1).cells.take
        (min 1 (routeData idMath [(1 / 2, 1 / 2, 4 / 5)] [] unitSquare
          111320 1).cells.length) := by
  have h := C6_grid_aggregation idMath [(1 / 2, 1 / 2, 4 / 5)] [] unitSquare
    111320 1
  refine ⟨?_, h.2.2.1⟩
  have hmem : sampleCell ∈ (routeData idMath [(1 / 2, 1 / 2, 4 / 5)] []
      unitSquare 111320 1).cells := by
    rw [routeData_eval]
    exact List.mem_singleton_self _
  have hth := (h.1 sampleCell hmem).1
  exact hth

/-- C7 witness: `topN = 0` on the one-cell scenario yields an empty selection
and an empty route. -/
theorem C7_route_invariant_witness :
    (routeData idMath [(1 / 2, 1 / 2, 4 / 5)] [] unitSquare 111320 0).selected =
      [] ∧
    (routeData idMath [(1 / 2, 1 / 2, 4 / 5)] [] unitSquare 111320 0).path =
      [] :=
  (C7_route_invariant idMath [(1 / 2, 1 / 2, 4 / 5)] [] unitSquare
    111320 0).2.2.2 rfl

/-- C9 witness: the empty-input theorem applied to the concrete unit-square
scenario with zero hotspots. -/
theorem C9_empty_inputs_witness :
    ((424487787 : ℚ) / 2147483648, (137364677 : ℚ) / 268435456,
      (0 : ℚ)).2.2 = 0 ∧
    (riskLabel (coverage (sampleHeatPoints idMath unitSquare
      (generateHotspots unitSquare 0 5 (3 / 5, 1) (25, 80)) 1 1))).1 =
      "Baixo" := by
  constructor
  · have hmem : ((424487787 : ℚ) / 2147483648, (137364677 : ℚ) / 268435456,
        (0 : ℚ)) ∈ sampleHeatPoints idMath unitSquare [] 1 1 := by
      rw [sampleHeatPoints_eval]
      exact List.mem_singleton_self _
    have hth := C9_empty_inputs.2.1 idMath unitSquare 1 1 _ hmem
    exact hth
  · have hth := (C9_empty_inputs.2.2.1 idMath 1 5 1 (3 / 5, 1) (25, 80)).2
    exact hth

/-- C10 witness: the cell-invariant theorem applied to the concrete cell of
the one-sample scenario. -/
theorem C10_cell_invariants_witness :
    0 ≤ sampleCell.wAvg ∧ sampleCell.wAvg ≤ 1 ∧
    0 ≤ sampleCell.score ∧ sampleCell.score ≤ 1 := by
  have hw : ∀ p ∈ [((1 : ℚ) / 2, (1 : ℚ) / 2, (4 : ℚ) / 5)],
      0 ≤ p.2.2 ∧ p.2.2 ≤ 1 := by
    intro p hp
    rcases List.mem_singleton.mp hp with rfl
    norm_num
  have hmem : sampleCell ∈ (routeData idMath [(1 / 2, 1 / 2, 4 / 5)] []
      unitSquare 111320 1).cells := by
    rw [routeData_eval]
    exact List.mem_singleton_self _
  have hth := C10_cell_invariants.2 idMath [(1 / 2, 1 / 2, 4 / 5)] []
    unitSquare 111320 1 hw sampleCell hmem
  exact hth

/-- C4 witness: the stream-seed theorem applied at seed 0. -/
theorem C4_stream_seeds_witness :
    hotspotsSeed 0 % 4294967296 ≠ samplesSeed 0 ∧
    samplesSeed 0 ≠ detectionsSeed 0 :=
  ⟨(C4_stream_seeds 0).2.2.2.2.2.2.1, (C4_stream_seeds 0).2.2.2.2.2.2.2.2⟩
